import Mathlib

/-!
Shallow embedding of the core of the fhevm-react-template SDK
(packages/fhevm-sdk/src): encryption type dispatch (core/encryption.ts),
decryption and permits (core/decryption.ts), the validation layer
(utils/validation.ts), network resolution (core/client.ts), and the
rate limiter (adapters/react/index.ts).

Conventions of the embedding:
* JavaScript numbers that flow through these functions are integral
  (the SDK deals in unsigned integer plaintexts), so they are modelled
  as Lean Int; bigint is likewise Int.
* A thrown JavaScript Error is modelled as Except.error carrying the
  message string of the Error.
* Network effects are modelled by passing an explicit transport oracle
  (a function from the request body to the fetch outcome) and recording
  the number of network calls a function issues.
-/

set_option autoImplicit false
set_option linter.unnecessarySeqFocus false

namespace Fhevm

/-- The six supported FHE encodings (types/fhe.ts, FheType). -/
inductive FheType where
  | uint8
  | uint16
  | uint32
  | uint64
  | bool
  | address
deriving DecidableEq, Repr

/-- Printed name of an FheType, as interpolated into error messages. -/
def fheTypeName : FheType → String
  | FheType.uint8 => "uint8"
  | FheType.uint16 => "uint16"
  | FheType.uint32 => "uint32"
  | FheType.uint64 => "uint64"
  | FheType.bool => "bool"
  | FheType.address => "address"

/-- Which builder method the encryption path invokes on the cryptographic
instance (client.instance.createEncryptedInput(...).addN/addBool/addAddress).
The cryptographic instance itself is external (fhevmjs), so the embedding
records which add-call runs; reaching an add-call means the value passed
local validation and encryption proceeds. -/
inductive AddCall where
  | add8 (n : Int)
  | add16 (n : Int)
  | add32 (n : Int)
  | add64 (n : Int)
  | addBool (b : Bool)
  | addAddress (s : String)
deriving DecidableEq, Repr

/-- Outcome of one of the encrypt functions in core/encryption.ts:
either a validation Error is thrown before any cryptographic call,
or control reaches the builder add-call recorded here. -/
inductive EncOutcome where
  | throws (msg : String)
  | encrypts (call : AddCall)
deriving DecidableEq, Repr

/-- encryptUint8 (core/encryption.ts lines 27-41): range check before
any cryptographic call. -/
def encryptUint8 (value : Int) : EncOutcome :=
  if value < 0 ∨ value > 255 then
    EncOutcome.throws "Value must be between 0 and 255 for uint8"
  else
    EncOutcome.encrypts (AddCall.add8 value)

/-- encryptUint16 (core/encryption.ts lines 51-65). -/
def encryptUint16 (value : Int) : EncOutcome :=
  if value < 0 ∨ value > 65535 then
    EncOutcome.throws "Value must be between 0 and 65535 for uint16"
  else
    EncOutcome.encrypts (AddCall.add16 value)

/-- encryptUint32 (core/encryption.ts lines 75-89). -/
def encryptUint32 (value : Int) : EncOutcome :=
  if value < 0 ∨ value > 4294967295 then
    EncOutcome.throws "Value must be between 0 and 4294967295 for uint32"
  else
    EncOutcome.encrypts (AddCall.add32 value)

/-- encryptUint64 (core/encryption.ts lines 99-113); the value is a bigint. -/
def encryptUint64 (value : Int) : EncOutcome :=
  if value < 0 ∨ value > 18446744073709551615 then
    EncOutcome.throws "Value must be between 0 and 2^64-1 for uint64"
  else
    EncOutcome.encrypts (AddCall.add64 value)

/-- encryptBool (core/encryption.ts lines 123-133): no validation, goes
straight to the builder. -/
def encryptBool (value : Bool) : EncOutcome :=
  EncOutcome.encrypts (AddCall.addBool value)

/-- The JavaScript String.prototype.startsWith test, modelled on the
character sequence of the string. -/
def jsStartsWith (s pre : String) : Bool :=
  List.isPrefixOf pre.data s.data

/-- encryptAddress (core/encryption.ts lines 143-157): the local check is
only a 0x-prefix test and a length-42 test. -/
def encryptAddress (address : String) : EncOutcome :=
  if ¬ jsStartsWith address "0x" ∨ address.length ≠ 42 then
    EncOutcome.throws "Invalid Ethereum address format"
  else
    EncOutcome.encrypts (AddCall.addAddress address)

/-- Runtime shape of a value passed to the auto-detect encrypt entry point
(number or bigint or boolean or string). The num constructor models an
integral JavaScript number. -/
inductive JsValue where
  | num (n : Int)
  | bigintV (n : Int)
  | boolV (b : Bool)
  | str (s : String)
deriving DecidableEq, Repr

/-- encrypt with automatic type detection (core/encryption.ts lines 167-199):
boolean first, then 0x-prefixed strings, then bigint (always uint64), then
plain numbers by magnitude with no automatic widening past uint32. A string
not starting with 0x falls through every branch to the final throw. -/
def encrypt (value : JsValue) : EncOutcome :=
  match value with
  | JsValue.boolV b => encryptBool b
  | JsValue.str s =>
      if jsStartsWith s "0x" then encryptAddress s
      else EncOutcome.throws "Unsupported value type for encryption: string"
  | JsValue.bigintV n => encryptUint64 n
  | JsValue.num n =>
      if 0 ≤ n ∧ n ≤ 255 then encryptUint8 n
      else if 0 ≤ n ∧ n ≤ 65535 then encryptUint16 n
      else if 0 ≤ n ∧ n ≤ 4294967295 then encryptUint32 n
      else EncOutcome.throws "Number value out of range for uint32, use bigint for uint64"

/-- One character of the hex-digit class of the address regex. -/
def isHexDigit (c : Char) : Bool :=
  c.isDigit || (decide ('a' ≤ c) && decide (c ≤ 'f')) || (decide ('A' ≤ c) && decide (c ≤ 'F'))

/-- Test of the address regex (the pattern 0x followed by exactly 40 hex
digits, case-insensitive) as used by validateFheValue and inferFheType in
utils/validation.ts; this is also the address shape the specification
prescribes. -/
def matchesAddressRegex (s : String) : Bool :=
  jsStartsWith s "0x" && (s.length == 42) && (s.data.drop 2).all isHexDigit

/-- inferFheType (utils/validation.ts lines 59-83). -/
def inferFheType (value : JsValue) : Except String FheType :=
  match value with
  | JsValue.boolV _ => Except.ok FheType.bool
  | JsValue.str s =>
      if matchesAddressRegex s then Except.ok FheType.address
      else Except.error "String value must be a valid Ethereum address"
  | JsValue.num n =>
      if n < 0 then Except.error "Negative values are not supported"
      else if n ≤ 255 then Except.ok FheType.uint8
      else if n ≤ 65535 then Except.ok FheType.uint16
      else if n ≤ 4294967295 then Except.ok FheType.uint32
      else if n ≤ 18446744073709551615 then Except.ok FheType.uint64
      else Except.error "Value too large for supported FHE types"
  | JsValue.bigintV n =>
      if n < 0 then Except.error "Negative values are not supported"
      else if n ≤ 255 then Except.ok FheType.uint8
      else if n ≤ 65535 then Except.ok FheType.uint16
      else if n ≤ 4294967295 then Except.ok FheType.uint32
      else if n ≤ 18446744073709551615 then Except.ok FheType.uint64
      else Except.error "Value too large for supported FHE types"

/-- Decryption permit (core/decryption.ts lines 13-16): the interface has
exactly a signature and a publicKey, no expiry field. -/
structure DecryptionPermit where
  signature : String
  publicKey : String
deriving DecidableEq, Repr

/-- A permit object as the specification describes it, with an expiresAt
timestamp. TypeScript is structurally typed, so an object carrying this
extra field is accepted wherever a DecryptionPermit is expected; the SDK
functions see only the two declared fields. -/
structure PermitWithExpiry where
  signature : String
  publicKey : String
  expiresAt : Int
deriving DecidableEq, Repr

/-- The fields of a PermitWithExpiry that the SDK's permit functions read. -/
def PermitWithExpiry.toPermit (p : PermitWithExpiry) : DecryptionPermit :=
  DecryptionPermit.mk p.signature p.publicKey

/-- Outcome of a fetch to the gateway, as observed by the caller: either the
fetch (or subsequent json parse) throws, or an HTTP response arrives with an
ok flag, a status text and a parsed body. -/
inductive FetchOutcome (α : Type) where
  | fail (msg : String)
  | response (ok : Bool) (statusText : String) (body : α)

/-- Body sent to POST gatewayUrl/permit/validate. -/
structure PermitValidateRequest where
  signature : String
  publicKey : String

/-- isPermitValid (core/decryption.ts lines 241-267), with the transport made
explicit. The Nat component counts the network calls issued: the function
unconditionally performs the fetch, returns false on a non-ok response or a
thrown error, and otherwise returns the body's valid flag. -/
def isPermitValid (transport : PermitValidateRequest → FetchOutcome Bool)
    (permit : DecryptionPermit) : Bool × Nat :=
  match transport (PermitValidateRequest.mk permit.signature permit.publicKey) with
  | FetchOutcome.fail _ => (false, 1)
  | FetchOutcome.response ok _ valid => if ok then (valid, 1) else (false, 1)

/-- Body sent to POST gatewayUrl/decrypt. -/
structure DecryptRequest where
  handle : Int
  signature : String
  publicKey : String

/-- decrypt (core/decryption.ts lines 96-123), with the transport made
explicit. The Nat component counts the network calls issued. No permit
validation happens before the fetch; a non-ok response throws
"Decryption failed: statusText" inside the try block, and the catch
re-wraps every failure as "Failed to decrypt value: ...". -/
def decrypt (transport : DecryptRequest → FetchOutcome Int) (handle : Int)
    (permit : DecryptionPermit) : Except String Int × Nat :=
  match transport (DecryptRequest.mk handle permit.signature permit.publicKey) with
  | FetchOutcome.fail msg =>
      (Except.error ("Failed to decrypt value: " ++ msg), 1)
  | FetchOutcome.response ok statusText value =>
      if ok then (Except.ok value, 1)
      else (Except.error ("Failed to decrypt value: Error: Decryption failed: " ++ statusText), 1)

/-- All-or-nothing join of one decryption per handle, modelling
Promise.all over handles.map: the batch resolves with every value in input
order when all succeed, and rejects when any single decryption rejects. -/
def promiseAll (f : Int → Except String Int) : List Int → Except String (List Int)
  | [] => Except.ok []
  | h :: rest =>
      match f h with
      | Except.error e => Except.error e
      | Except.ok v =>
          match promiseAll f rest with
          | Except.error e => Except.error e
          | Except.ok vs => Except.ok (v :: vs)

/-- decryptBatch (core/decryption.ts lines 135-145). -/
def decryptBatch (transport : DecryptRequest → FetchOutcome Int)
    (handles : List Int) (permit : DecryptionPermit) : Except String (List Int) :=
  promiseAll (fun h => (decrypt transport h permit).1) handles

/-- decryptBool (core/decryption.ts lines 156-163): value is nonzero. -/
def decryptBool (transport : DecryptRequest → FetchOutcome Int) (handle : Int)
    (permit : DecryptionPermit) : Except String Bool × Nat :=
  match decrypt transport handle permit with
  | (Except.error e, n) => (Except.error e, n)
  | (Except.ok v, n) => (Except.ok (decide (v ≠ 0)), n)

/-- validateDecryptionPermit (utils/validation.ts lines 151-163); the
argument is Option-al because the source first rejects a null or undefined
permit. A thrown Error is an Except.error. -/
def validateDecryptionPermit (permit : Option DecryptionPermit) : Except String Unit :=
  match permit with
  | none => Except.error "Decryption permit is required"
  | some p =>
      if p.signature = "" then Except.error "Permit signature is required"
      else if p.publicKey = "" then Except.error "Permit public key is required"
      else Except.ok ()

/-- Runtime shape of the value argument of validateFheValue, following its
declared type number or bigint or boolean; num models an integral
JavaScript number. -/
inductive ValueArg where
  | num (n : Int)
  | bigintV (n : Int)
  | boolV (b : Bool)
deriving DecidableEq, Repr

/-- The BigInt(value) coercion applied in the numeric branch of
validateFheValue. -/
def jsToBigInt : ValueArg → Int
  | ValueArg.num n => n
  | ValueArg.bigintV n => n
  | ValueArg.boolV b => if b then 1 else 0

/-- FHE_RANGES (utils/validation.ts lines 13-19); address has no entry. -/
def FHE_RANGES : FheType → Option (Int × Int)
  | FheType.uint8 => some (0, 255)
  | FheType.uint16 => some (0, 65535)
  | FheType.uint32 => some (0, 4294967295)
  | FheType.uint64 => some (0, 18446744073709551615)
  | FheType.bool => some (0, 1)
  | FheType.address => none

/-- validateFheValue (utils/validation.ts lines 24-54). For the bool type,
strict equality means a bigint never equals the number 0 or 1, so only a
boolean or the numbers 0 and 1 pass. For the address type the declared
argument type can never be a string, so that branch always throws. A thrown
Error is an Except.error. -/
def validateFheValue (value : ValueArg) (ty : FheType) : Except String Unit :=
  if ty = FheType.bool then
    match value with
    | ValueArg.boolV _ => Except.ok ()
    | ValueArg.num n =>
        if n = 0 ∨ n = 1 then Except.ok ()
        else Except.error "Boolean value must be true, false, 0, or 1"
    | ValueArg.bigintV _ => Except.error "Boolean value must be true, false, 0, or 1"
  else if ty = FheType.address then
    Except.error "Address value must be a string"
  else
    let bigValue := jsToBigInt value
    match FHE_RANGES ty with
    | none => Except.error ("Unknown FHE type: " ++ fheTypeName ty)
    | some range =>
        if bigValue < range.1 ∨ bigValue > range.2 then
          Except.error ("Value " ++ toString bigValue ++ " out of range for "
            ++ fheTypeName ty ++ " (" ++ toString range.1 ++ " - " ++ toString range.2 ++ ")")
        else Except.ok ()

/-- Runtime shape of the argument of validateEncryptedHandle (declared any). -/
inductive JsHandle where
  | nullV
  | undefV
  | num (n : Int)
  | bigintV (n : Int)
  | str (s : String)
  | boolV (b : Bool)
deriving DecidableEq, Repr

/-- The BigInt(string) coercion for the decimal strings this code path
receives: the empty string coerces to 0, a decimal numeral parses, anything
else throws (none). -/
def jsBigIntOfString (s : String) : Option Int :=
  if s = "" then some 0 else s.toInt?

/-- validateEncryptedHandle (utils/validation.ts lines 168-178): null and
undefined are rejected up front, then BigInt coercion is attempted and a
coercion failure is rethrown as a format error. -/
def validateEncryptedHandle (handle : JsHandle) : Except String Int :=
  match handle with
  | JsHandle.nullV => Except.error "Encrypted handle is required"
  | JsHandle.undefV => Except.error "Encrypted handle is required"
  | JsHandle.num n => Except.ok n
  | JsHandle.bigintV n => Except.ok n
  | JsHandle.boolV b => Except.ok (if b then 1 else 0)
  | JsHandle.str s =>
      match jsBigIntOfString s with
      | some n => Except.ok n
      | none => Except.error "Invalid encrypted handle format"

/-- NetworkConfig (core/client.ts lines 14-19). -/
structure NetworkConfig where
  chainId : Nat
  rpcUrl : String
  gatewayUrl : String
  aclAddress : String
deriving DecidableEq, Repr

/-- NETWORKS (core/client.ts lines 24-37), the static registry, as an
association list keyed by network name. -/
def NETWORKS : List (String × NetworkConfig) :=
  [("sepolia", NetworkConfig.mk 11155111 "https://rpc.sepolia.org" "https://gateway.zama.ai" "0x..."),
   ("localhost", NetworkConfig.mk 31337 "http://localhost:8545" "http://localhost:8080" "0x...")]

/-- FhevmClientConfig (core/client.ts lines 42-53); the network is a name or
an inline NetworkConfig, and the overrides are optional. The provider and
privateKey fields only influence provider creation, not network resolution,
and are modelled as opaque optional strings. -/
structure FhevmClientConfig where
  network : Sum String NetworkConfig
  provider : Option String
  privateKey : Option String
  gatewayUrl : Option String
  aclAddress : Option String

/-- JavaScript truthiness guard on an optional string override: undefined
and the empty string are falsy, so only a nonempty string replaces the
current field value. -/
def applyOverride (current : String) (override : Option String) : String :=
  match override with
  | none => current
  | some s => if s = "" then current else s

/-- Write a resolved entry back into the registry under its name. In the
source, networkConfig aliases the object stored in NETWORKS when the network
is given by name, so the two field assignments in createFhevmClient write
through to the registry's stored entry; the embedding makes that heap effect
explicit by returning the post-call registry. -/
def storeUpdate (registry : List (String × NetworkConfig)) (name : String)
    (nc : NetworkConfig) : List (String × NetworkConfig) :=
  registry.map (fun p => if p.1 = name then (name, nc) else p)

/-- The network-resolution prefix of createFhevmClient (core/client.ts lines
100-122): look the configuration up by name (or take it verbatim), throw on
an unknown name, then apply the gatewayUrl and aclAddress overrides by field
assignment. Returns the client's network together with the registry as it
stands after the call. -/
def resolveNetworkConfig (registry : List (String × NetworkConfig))
    (config : FhevmClientConfig) :
    Except String (NetworkConfig × List (String × NetworkConfig)) :=
  match config.network with
  | Sum.inl name =>
      match registry.lookup name with
      | none => Except.error ("Unknown network: " ++ name)
      | some nc =>
          let resolved := NetworkConfig.mk nc.chainId nc.rpcUrl
            (applyOverride nc.gatewayUrl config.gatewayUrl)
            (applyOverride nc.aclAddress config.aclAddress)
          Except.ok (resolved, storeUpdate registry name resolved)
  | Sum.inr nc =>
      let resolved := NetworkConfig.mk nc.chainId nc.rpcUrl
        (applyOverride nc.gatewayUrl config.gatewayUrl)
        (applyOverride nc.aclAddress config.aclAddress)
      Except.ok (resolved, registry)

/-- RateLimiter state (adapters/react/index.ts lines 460-468): the window
parameters and the recorded request timestamps, most recent last.
Timestamps are milliseconds as produced by Date.now(). -/
structure RateLimiter where
  maxRequests : Nat
  windowMs : Int
  requests : List Int
deriving DecidableEq, Repr

/-- RateLimiter.isAllowed (adapters/react/index.ts lines 473-483): prune
timestamps outside the window, then either record the current time and
accept, or reject. Returns the verdict with the successor state. -/
def RateLimiter.isAllowed (rl : RateLimiter) (now : Int) : Bool × RateLimiter :=
  let pruned := rl.requests.filter (fun t => now - t < rl.windowMs)
  if pruned.length < rl.maxRequests then
    (true, RateLimiter.mk rl.maxRequests rl.windowMs (pruned ++ [now]))
  else
    (false, RateLimiter.mk rl.maxRequests rl.windowMs pruned)

/-- RateLimiter.reset (adapters/react/index.ts lines 488-490). -/
def RateLimiter.reset (rl : RateLimiter) : RateLimiter :=
  RateLimiter.mk rl.maxRequests rl.windowMs []

/-- Whether an Except value models a thrown Error. -/
def throwsError (e : Except String Unit) : Bool :=
  match e with
  | Except.error _ => true
  | Except.ok _ => false

/-- Whether a per-handle decryption resolved. -/
def exOk (e : Except String Int) : Bool :=
  match e with
  | Except.ok _ => true
  | Except.error _ => false

/-- The resolved value of a per-handle decryption, when it resolved. -/
def exValue (e : Except String Int) : Option Int :=
  match e with
  | Except.ok v => some v
  | Except.error _ => none

/-- A mocked transport whose permit/validate endpoint always answers
valid = true with HTTP 200, used to observe isPermitValid's behaviour. -/
def alwaysValidTransport : PermitValidateRequest → FetchOutcome Bool :=
  fun _ => FetchOutcome.response true "OK" true

/-- A permit carrying an expiresAt of 0, far in the past relative to the
observation time 1700000000000 ms used below. -/
def expiredPermit : PermitWithExpiry :=
  PermitWithExpiry.mk "0xsignature" "0xpublickey" 0

/-- A mocked transport whose decrypt endpoint always answers the value 42
with HTTP 200. -/
def okDecryptTransport : DecryptRequest → FetchOutcome Int :=
  fun _ => FetchOutcome.response true "OK" 42

/-- A mocked transport that decrypts handle 1 to 10 and handle 2 to 20 and
fails on every other handle. -/
def batchTransport : DecryptRequest → FetchOutcome Int :=
  fun r =>
    if r.handle = 1 then FetchOutcome.response true "OK" 10
    else if r.handle = 2 then FetchOutcome.response true "OK" 20
    else FetchOutcome.fail "network error"

/-- A well-formed permit for the batch scenarios. -/
def batchPermit : DecryptionPermit :=
  DecryptionPermit.mk "0xsignature" "0xpublickey"

/-- A 42-character 0x-prefixed string whose 40 tail characters are not hex
digits. -/
def nonHexAddress : String :=
  "0xzzzzzzzzzzzzzzzzzzzzzzzzzzzzzzzzzzzzzzzz"

/-- A client configuration selecting the sepolia registry entry by name and
overriding its gateway URL. -/
def customGatewayConfig : FhevmClientConfig :=
  FhevmClientConfig.mk (Sum.inl "sepolia") none none (some "https://custom-gateway.example") none

/-! ## Shared helper lemmas -/

theorem encryptUint8_spec (v : Int) :
    (encryptUint8 v = EncOutcome.encrypts (AddCall.add8 v) ↔ 0 ≤ v ∧ v ≤ 255) ∧
    (encryptUint8 v = EncOutcome.throws "Value must be between 0 and 255 for uint8"
      ↔ (v < 0 ∨ v > 255)) := by
  unfold encryptUint8
  constructor <;> (split_ifs <;> simp <;> omega)

theorem encryptUint16_spec (v : Int) :
    (encryptUint16 v = EncOutcome.encrypts (AddCall.add16 v) ↔ 0 ≤ v ∧ v ≤ 65535) ∧
    (encryptUint16 v = EncOutcome.throws "Value must be between 0 and 65535 for uint16"
      ↔ (v < 0 ∨ v > 65535)) := by
  unfold encryptUint16
  constructor <;> (split_ifs <;> simp <;> omega)

theorem encryptUint32_spec (v : Int) :
    (encryptUint32 v = EncOutcome.encrypts (AddCall.add32 v) ↔ 0 ≤ v ∧ v ≤ 4294967295) ∧
    (encryptUint32 v = EncOutcome.throws "Value must be between 0 and 4294967295 for uint32"
      ↔ (v < 0 ∨ v > 4294967295)) := by
  unfold encryptUint32
  constructor <;> (split_ifs <;> simp <;> omega)

theorem encryptUint64_spec (v : Int) :
    (encryptUint64 v = EncOutcome.encrypts (AddCall.add64 v) ↔ 0 ≤ v ∧ v ≤ 18446744073709551615) ∧
    (encryptUint64 v = EncOutcome.throws "Value must be between 0 and 2^64-1 for uint64"
      ↔ (v < 0 ∨ v > 18446744073709551615)) := by
  unfold encryptUint64
  constructor <;> (split_ifs <;> simp <;> omega)

theorem encrypt_num_add8_iff (n : Int) :
    encrypt (JsValue.num n) = EncOutcome.encrypts (AddCall.add8 n) ↔ 0 ≤ n ∧ n ≤ 255 := by
  simp only [encrypt, encryptUint8, encryptUint16, encryptUint32]
  split_ifs <;> first | (exfalso; omega) | (simp <;> omega)

theorem encrypt_num_add16_iff (n : Int) :
    encrypt (JsValue.num n) = EncOutcome.encrypts (AddCall.add16 n) ↔ 255 < n ∧ n ≤ 65535 := by
  simp only [encrypt, encryptUint8, encryptUint16, encryptUint32]
  split_ifs <;> first | (exfalso; omega) | (simp <;> omega)

theorem encrypt_num_add32_iff (n : Int) :
    encrypt (JsValue.num n) = EncOutcome.encrypts (AddCall.add32 n) ↔ 65535 < n ∧ n ≤ 4294967295 := by
  simp only [encrypt, encryptUint8, encryptUint16, encryptUint32]
  split_ifs <;> first | (exfalso; omega) | (simp <;> omega)

theorem encrypt_num_overflow_iff (n : Int) :
    encrypt (JsValue.num n) = EncOutcome.throws "Number value out of range for uint32, use bigint for uint64"
      ↔ (n < 0 ∨ n > 4294967295) := by
  simp only [encrypt, encryptUint8, encryptUint16, encryptUint32]
  split_ifs <;> first | (exfalso; omega) | (simp <;> omega)

/-! ## The claims -/

/-- C5: auto-detect dispatch selects the boolean path for every boolean
input; for plain numbers it selects the smallest unsigned width that fits
(8-bit for 0..255, 16-bit up to 65535, 32-bit up to 4294967295), with
encrypt 250 on the 8-bit path, encrypt 1000 on the 16-bit path and
encrypt (2^32 - 1) on the 32-bit path; and a plain number above 2^32 - 1
(such as 2^32) is rejected rather than silently widened to 64 bits. -/
theorem encrypt_autodetect_dispatch :
    (∀ b : Bool, encrypt (JsValue.boolV b) = EncOutcome.encrypts (AddCall.addBool b)) ∧
    (∀ n : Int, (encrypt (JsValue.num n) = EncOutcome.encrypts (AddCall.add8 n) ↔ 0 ≤ n ∧ n ≤ 255)) ∧
    (∀ n : Int, (encrypt (JsValue.num n) = EncOutcome.encrypts (AddCall.add16 n) ↔ 255 < n ∧ n ≤ 65535)) ∧
    (∀ n : Int, (encrypt (JsValue.num n) = EncOutcome.encrypts (AddCall.add32 n) ↔ 65535 < n ∧ n ≤ 4294967295)) ∧
    (∀ n : Int, (encrypt (JsValue.num n) = EncOutcome.throws "Number value out of range for uint32, use bigint for uint64" ↔ (n < 0 ∨ n > 4294967295))) ∧
    encrypt (JsValue.num 250) = EncOutcome.encrypts (AddCall.add8 250) ∧
    encrypt (JsValue.num 1000) = EncOutcome.encrypts (AddCall.add16 1000) ∧
    encrypt (JsValue.num 4294967295) = EncOutcome.encrypts (AddCall.add32 4294967295) ∧
    encrypt (JsValue.num 4294967296) = EncOutcome.throws "Number value out of range for uint32, use bigint for uint64" :=
  ⟨fun _ => rfl, encrypt_num_add8_iff, encrypt_num_add16_iff, encrypt_num_add32_iff,
   encrypt_num_overflow_iff, by decide, by decide, by decide, by decide⟩

/-- C6: encryptUint8 reaches the cryptographic call exactly for
0 ≤ v ≤ 255 and otherwise throws its range-violation error before any
cryptographic call; analogously encryptUint16 up to 65535, encryptUint32
up to 4294967295 and encryptUint64 up to 2^64 - 1. -/
theorem encryptUint_range_bounds :
    ∀ v : Int,
      (encryptUint8 v = EncOutcome.encrypts (AddCall.add8 v) ↔ 0 ≤ v ∧ v ≤ 255) ∧
      (encryptUint8 v = EncOutcome.throws "Value must be between 0 and 255 for uint8" ↔ (v < 0 ∨ v > 255)) ∧
      (encryptUint16 v = EncOutcome.encrypts (AddCall.add16 v) ↔ 0 ≤ v ∧ v ≤ 65535) ∧
      (encryptUint16 v = EncOutcome.throws "Value must be between 0 and 65535 for uint16" ↔ (v < 0 ∨ v > 65535)) ∧
      (encryptUint32 v = EncOutcome.encrypts (AddCall.add32 v) ↔ 0 ≤ v ∧ v ≤ 4294967295) ∧
      (encryptUint32 v = EncOutcome.throws "Value must be between 0 and 4294967295 for uint32" ↔ (v < 0 ∨ v > 4294967295)) ∧
      (encryptUint64 v = EncOutcome.encrypts (AddCall.add64 v) ↔ 0 ≤ v ∧ v ≤ 18446744073709551615) ∧
      (encryptUint64 v = EncOutcome.throws "Value must be between 0 and 2^64-1 for uint64" ↔ (v < 0 ∨ v > 18446744073709551615)) :=
  fun v =>
    ⟨(encryptUint8_spec v).1, (encryptUint8_spec v).2,
     (encryptUint16_spec v).1, (encryptUint16_spec v).2,
     (encryptUint32_spec v).1, (encryptUint32_spec v).2,
     (encryptUint64_spec v).1, (encryptUint64_spec v).2⟩

/-- C10: auto-detect encrypt routes every bigint through the uint64 path,
even values that would fit a narrower width (such as 5 or 250), succeeding
exactly for 0 ≤ b ≤ 2^64 - 1; it never selects a narrower encoding for a
bigint, since the uint64 path only ever reaches the 64-bit add-call. -/
theorem encrypt_bigint_routes_uint64 :
    (∀ b : Int, encrypt (JsValue.bigintV b) = encryptUint64 b) ∧
    (∀ b : Int, (encrypt (JsValue.bigintV b) = EncOutcome.encrypts (AddCall.add64 b) ↔ 0 ≤ b ∧ b ≤ 18446744073709551615)) ∧
    encrypt (JsValue.bigintV 5) = EncOutcome.encrypts (AddCall.add64 5) ∧
    encrypt (JsValue.bigintV 250) = EncOutcome.encrypts (AddCall.add64 250) :=
  ⟨fun _ => rfl, fun b => (encryptUint64_spec b).1, by decide, by decide⟩

/-- C7: the claim states that encryptAddress succeeds only for strings
matching the 20-byte hex-address pattern and rejects 42-character
0x-prefixed strings containing non-hex characters. Counterexample: the
string of 40 z characters after 0x fails the hex regex, yet encryptAddress
accepts it and reaches the cryptographic call instead of failing. -/
theorem encryptAddress_nonhex_counterexample :
    matchesAddressRegex nonHexAddress = false ∧
    jsStartsWith nonHexAddress "0x" = true ∧
    nonHexAddress.length = 42 ∧
    encryptAddress nonHexAddress = EncOutcome.encrypts (AddCall.addAddress nonHexAddress) :=
  ⟨by decide, by decide, by decide, by decide⟩

/-- C7 (amended): encryptAddress validates only that the string starts with
0x and has total length 42; every such string reaches the cryptographic
call (hex-ness of the 40 tail characters is not checked), and every other
string fails with the format error before any cryptographic call. -/
theorem encryptAddress_prefix_length_spec :
    ∀ s : String,
      (encryptAddress s = EncOutcome.encrypts (AddCall.addAddress s)
        ↔ (jsStartsWith s "0x" = true ∧ s.length = 42)) ∧
      (encryptAddress s = EncOutcome.throws "Invalid Ethereum address format"
        ↔ (jsStartsWith s "0x" && (s.length == 42)) = false) := by
  intro s
  by_cases hp : jsStartsWith s "0x" = true <;> by_cases hl : s.length = 42 <;>
    simp [encryptAddress, hp, hl]

/-- C1: the claim states that a permit whose expiresAt lies in the past is
rejected by isPermitValid (returns false) without any network call; the
pair returned by the embedding would have to be (false, 0), its Nat
component counting the network calls issued. Counterexample: at observation
time 1700000000000 ms the permit expiredPermit (expiresAt = 0) is long
expired, yet isPermitValid issues one network call to permit/validate and
returns the mocked transport's verdict true. -/
theorem isPermitValid_expired_counterexample :
    expiredPermit.expiresAt < 1700000000000 ∧
    isPermitValid alwaysValidTransport expiredPermit.toPermit = (true, 1) :=
  ⟨by decide, rfl⟩

/-- C1 (amended): isPermitValid performs no local expiry check: for every
transport and every permit, expired or not, it issues exactly one network
call to the permit/validate endpoint, and its verdict is determined
entirely by the transport outcome (false on a thrown transport error or a
non-ok response, the response's valid flag otherwise). -/
theorem isPermitValid_always_calls_gateway :
    ∀ (transport : PermitValidateRequest → FetchOutcome Bool) (p : PermitWithExpiry),
      (isPermitValid transport p.toPermit).2 = 1 ∧
      (isPermitValid transport p.toPermit).1 =
        (match transport (PermitValidateRequest.mk p.signature p.publicKey) with
         | FetchOutcome.fail _ => false
         | FetchOutcome.response ok _ valid => ok && valid) := by
  intro transport p
  cases htr : transport (PermitValidateRequest.mk p.signature p.publicKey) with
  | fail msg => simp [isPermitValid, PermitWithExpiry.toPermit, htr]
  | response ok st valid =>
      cases ok <;> simp [isPermitValid, PermitWithExpiry.toPermit, htr]

/-- C2: the claim states that a permit failing local validation (empty
signature or publicKey) makes decrypt raise InvalidPermit without any
network call. Counterexample: the all-empty permit fails
validateDecryptionPermit, yet decrypt issues one network call (the Nat
component) and resolves with the gateway's value 42. -/
theorem decrypt_empty_permit_counterexample :
    validateDecryptionPermit (some (DecryptionPermit.mk "" "")) = Except.error "Permit signature is required" ∧
    decrypt okDecryptTransport 5 (DecryptionPermit.mk "" "") = (Except.ok 42, 1) :=
  ⟨rfl, rfl⟩

/-- C2 (amended): decrypt performs no local permit validation: for every
transport, handle and permit, including permits with empty signature or
publicKey, it issues exactly one request to the gateway decrypt endpoint,
and its outcome is determined entirely by the transport outcome, every
failure being wrapped as a decryption error rather than an InvalidPermit. -/
theorem decrypt_always_calls_gateway :
    ∀ (transport : DecryptRequest → FetchOutcome Int) (handle : Int) (permit : DecryptionPermit),
      (decrypt transport handle permit).2 = 1 ∧
      (decrypt transport handle permit).1 =
        (match transport (DecryptRequest.mk handle permit.signature permit.publicKey) with
         | FetchOutcome.fail msg => Except.error ("Failed to decrypt value: " ++ msg)
         | FetchOutcome.response ok st v =>
             if ok then Except.ok v
             else Except.error ("Failed to decrypt value: Error: Decryption failed: " ++ st)) := by
  intro transport handle permit
  cases htr : transport (DecryptRequest.mk handle permit.signature permit.publicKey) with
  | fail msg => simp [decrypt, htr]
  | response ok st v => cases ok <;> simp [decrypt, htr]

/-- C3: the claim states that the validation-layer checks never throw for
expected malformed input and instead return a typed failure reason,
escalation being the caller's choice. Counterexample: in this embedding an
Except.error is precisely a thrown Error, and both validateFheValue on an
out-of-range uint8 and validateEncryptedHandle on a null handle throw,
performing the escalation themselves. -/
theorem validation_throws_counterexample :
    validateFheValue (ValueArg.num 256) FheType.uint8 = Except.error "Value 256 out of range for uint8 (0 - 255)" ∧
    validateEncryptedHandle JsHandle.nullV = Except.error "Encrypted handle is required" :=
  ⟨rfl, rfl⟩

/-- C3 (amended): the validation-layer checks signal failure by throwing an
Error carrying a descriptive message rather than returning a failure
reason: validateFheValue on the unsigned integer types returns normally
exactly when the value is inside the declared range and throws exactly
when it is outside, and validateEncryptedHandle throws on a missing handle
and returns the coerced value on a numeric one. -/
theorem validation_escalates_by_throwing :
    ∀ n : Int,
      (validateFheValue (ValueArg.num n) FheType.uint8 = Except.ok () ↔ 0 ≤ n ∧ n ≤ 255) ∧
      (throwsError (validateFheValue (ValueArg.num n) FheType.uint8) = true ↔ (n < 0 ∨ n > 255)) ∧
      (validateFheValue (ValueArg.num n) FheType.uint16 = Except.ok () ↔ 0 ≤ n ∧ n ≤ 65535) ∧
      (validateFheValue (ValueArg.num n) FheType.uint32 = Except.ok () ↔ 0 ≤ n ∧ n ≤ 4294967295) ∧
      (validateFheValue (ValueArg.num n) FheType.uint64 = Except.ok () ↔ 0 ≤ n ∧ n ≤ 18446744073709551615) ∧
      validateEncryptedHandle JsHandle.nullV = Except.error "Encrypted handle is required" ∧
      validateEncryptedHandle (JsHandle.num n) = Except.ok n := by
  intro n
  refine ⟨?_, ?_, ?_, ?_, ?_, rfl, rfl⟩
  · unfold validateFheValue
    rw [if_neg (by decide : ¬ (FheType.uint8 = FheType.bool)),
        if_neg (by decide : ¬ (FheType.uint8 = FheType.address))]
    simp only [FHE_RANGES, jsToBigInt]
    split_ifs <;> simp <;> omega
  · unfold validateFheValue
    rw [if_neg (by decide : ¬ (FheType.uint8 = FheType.bool)),
        if_neg (by decide : ¬ (FheType.uint8 = FheType.address))]
    simp only [FHE_RANGES, jsToBigInt]
    split_ifs <;> simp [throwsError] <;> omega
  · unfold validateFheValue
    rw [if_neg (by decide : ¬ (FheType.uint16 = FheType.bool)),
        if_neg (by decide : ¬ (FheType.uint16 = FheType.address))]
    simp only [FHE_RANGES, jsToBigInt]
    split_ifs <;> simp <;> omega
  · unfold validateFheValue
    rw [if_neg (by decide : ¬ (FheType.uint32 = FheType.bool)),
        if_neg (by decide : ¬ (FheType.uint32 = FheType.address))]
    simp only [FHE_RANGES, jsToBigInt]
    split_ifs <;> simp <;> omega
  · unfold validateFheValue
    rw [if_neg (by decide : ¬ (FheType.uint64 = FheType.bool)),
        if_neg (by decide : ¬ (FheType.uint64 = FheType.address))]
    simp only [FHE_RANGES, jsToBigInt]
    split_ifs <;> simp <;> omega

/-- C4 (code bug): resolving "sepolia" by name while supplying a gatewayUrl
override writes the override into the registry's stored entry, because the
resolved configuration aliases the NETWORKS object: after the call the
registry's sepolia entry carries the custom gateway URL instead of the
original one, so the stored NetworkConfig is modified, contrary to the
claimed immutability. -/
theorem resolveNetworkConfig_mutates_registry :
    List.lookup "sepolia" NETWORKS
      = some (NetworkConfig.mk 11155111 "https://rpc.sepolia.org" "https://gateway.zama.ai" "0x...") ∧
    (match resolveNetworkConfig NETWORKS customGatewayConfig with
     | Except.ok p => List.lookup "sepolia" p.2
     | Except.error _ => none)
      = some (NetworkConfig.mk 11155111 "https://rpc.sepolia.org" "https://custom-gateway.example" "0x...") :=
  ⟨rfl, rfl⟩

theorem promiseAll_ok (f : Int → Except String Int) (l : List Int)
    (h : ∀ x ∈ l, exOk (f x) = true) :
    promiseAll f l = Except.ok (l.filterMap (fun x => exValue (f x))) := by
  induction l with
  | nil => rfl
  | cons a t ih =>
      have ha := h a (List.mem_cons_self a t)
      cases hfa : f a with
      | error e => rw [hfa] at ha; simp [exOk] at ha
      | ok v =>
          have ht : ∀ x ∈ t, exOk (f x) = true := fun x hx => h x (List.mem_cons_of_mem a hx)
          simp [promiseAll, hfa, ih ht, exValue]

theorem filterMap_exValue_length (f : Int → Except String Int) (l : List Int)
    (h : ∀ x ∈ l, exOk (f x) = true) :
    (l.filterMap (fun x => exValue (f x))).length = l.length := by
  induction l with
  | nil => rfl
  | cons a t ih =>
      have ha := h a (List.mem_cons_self a t)
      cases hfa : f a with
      | error e => rw [hfa] at ha; simp [exOk] at ha
      | ok v =>
          have ht : ∀ x ∈ t, exOk (f x) = true := fun x hx => h x (List.mem_cons_of_mem a hx)
          simp [List.filterMap_cons, hfa, exValue, ih ht]
          intro x hx
          have hx2 := ht x hx
          cases hfx : f x with
          | ok w => simp
          | error e => rw [hfx] at hx2; simp [exOk] at hx2

theorem promiseAll_error_of_mem (f : Int → Except String Int) (l : List Int) (x : Int)
    (hx : x ∈ l) (hfx : exOk (f x) = false) :
    ∃ msg, promiseAll f l = Except.error msg := by
  induction l with
  | nil => cases hx
  | cons a t ih =>
      cases hfa : f a with
      | error e => exact ⟨e, by simp [promiseAll, hfa]⟩
      | ok v =>
          rcases List.mem_cons.mp hx with heq | hxt
          · rw [heq] at hfx; rw [hfa] at hfx; simp [exOk] at hfx
          · rcases ih hxt with ⟨msg, hmsg⟩
            exact ⟨msg, by simp [promiseAll, hfa, hmsg]⟩

/-- C8: for every list of handles, decryptBatch joins the per-handle
decryptions with all-must-succeed semantics: when every per-handle
decryption resolves, the batch resolves with the list of the decrypted
values taken in input order, of the same length as the input; and when any
single per-handle decryption fails, the whole batch rejects. -/
theorem decryptBatch_all_or_nothing (transport : DecryptRequest → FetchOutcome Int)
    (permit : DecryptionPermit) (handles : List Int) :
    ((∀ h ∈ handles, exOk ((decrypt transport h permit).1) = true) →
      decryptBatch transport handles permit
        = Except.ok (handles.filterMap (fun h => exValue ((decrypt transport h permit).1))) ∧
      (handles.filterMap (fun h => exValue ((decrypt transport h permit).1))).length = handles.length) ∧
    (∀ h ∈ handles, exOk ((decrypt transport h permit).1) = false →
      ∃ msg, decryptBatch transport handles permit = Except.error msg) := by
  constructor
  · intro hall
    exact ⟨promiseAll_ok _ _ hall, filterMap_exValue_length _ _ hall⟩
  · intro h hmem hfail
    exact promiseAll_error_of_mem _ _ _ hmem hfail

/-- Witness for C8: with the mocked batch transport, the batch of handles
1 and 2 resolves with the two values in input order, and the batch of
handles 1 and 3 rejects because handle 3 fails. -/
theorem decryptBatch_all_or_nothing_witness :
    decryptBatch batchTransport [1, 2] batchPermit = Except.ok [10, 20] ∧
    (∃ msg, decryptBatch batchTransport [1, 3] batchPermit = Except.error msg) := by
  have h1 := (decryptBatch_all_or_nothing batchTransport batchPermit [1, 2]).1 (by decide)
  have h2 := (decryptBatch_all_or_nothing batchTransport batchPermit [1, 3]).2 3 (by decide) (by decide)
  exact ⟨by rw [h1.1]; rfl, h2⟩

/-- C9: for a RateLimiter with max M ≥ 1 requests per window of W ms,
after M accepted requests whose timestamps all lie within the window of
the current time, the next isAllowed call returns false and records no
timestamp (the state keeps exactly the M recorded timestamps); and at any
later time by which W ms have elapsed since each of those requests, an
isAllowed call returns true again. -/
theorem rateLimiter_window_spec (M : Nat) (W : Int) (ts : List Int) (now later : Int)
    (hM : 0 < M) (hlen : ts.length = M)
    (hwin : ∀ t ∈ ts, now - t < W)
    (hexp : ∀ t ∈ ts, W ≤ later - t) :
    (RateLimiter.isAllowed (RateLimiter.mk M W ts) now).1 = false ∧
    ((RateLimiter.isAllowed (RateLimiter.mk M W ts) now).2).requests = ts ∧
    (RateLimiter.isAllowed (RateLimiter.mk M W ts) later).1 = true := by
  have hfull : ts.filter (fun t => decide (now - t < W)) = ts :=
    List.filter_eq_self.mpr (fun t ht => by simpa using hwin t ht)
  have hempty : ts.filter (fun t => decide (later - t < W)) = [] := by
    rw [List.filter_eq_nil_iff]
    intro t ht
    have := hexp t ht
    simp
    omega
  refine ⟨?_, ?_, ?_⟩
  · simp [RateLimiter.isAllowed, hfull, hlen]
  · simp [RateLimiter.isAllowed, hfull, hlen]
  · simp [RateLimiter.isAllowed, hempty, hM]

/-- Witness for C9: with max 2 requests per 1000 ms window and requests
recorded at times 0 and 1, a third call at time 500 is rejected and leaves
the recorded timestamps unchanged, and a call at time 1001 is accepted. -/
theorem rateLimiter_window_spec_witness :
    (RateLimiter.isAllowed (RateLimiter.mk 2 1000 [0, 1]) 500).1 = false ∧
    ((RateLimiter.isAllowed (RateLimiter.mk 2 1000 [0, 1]) 500).2).requests = [0, 1] ∧
    (RateLimiter.isAllowed (RateLimiter.mk 2 1000 [0, 1]) 1001).1 = true :=
  rateLimiter_window_spec 2 1000 [0, 1] 500 1001 (by decide) (by decide) (by decide) (by decide)

end Fhevm
